import Mathlib

/-!
Shallow embedding of the todo-django task and authentication layers.

The embedding mirrors `tasks/models.py`, `tasks/forms.py`, `tasks/views.py`
and `authentication/views.py`.  Strings are modelled as `List Char`,
timestamps and primary keys as `Nat`, users by their numeric id.  The
database table of tasks is a `List Task` in insertion (creation) order; the
ORM's declared ordering `Meta.ordering = ['-created_at']` is modelled as a
stable sort of that list by `created_at` descending.  Django's date-string
parsing (an external framework service) is modelled as decimal-numeral
parsing of a timestamp.  Framework class-based-view dispatch for the
authentication views is modelled with its documented defaults: `CreateView`
performs no authentication check, and `LoginView.redirect_authenticated_user`
defaults to `False` and is not overridden in `authentication/views.py`.
-/

namespace Todo

/-- HTTP request method, as far as the handlers inspect it. -/
inductive Method
  | GET
  | POST
deriving DecidableEq

/-- Task record, from `tasks/models.py` class `Task`: `title` (CharField,
max_length 200), `description` (TextField, blank allowed), `completed`
(BooleanField, default False), `created_at` (auto_now_add), `updated_at`
(auto_now), `user` (ForeignKey, stored as the owner's id). -/
structure Task where
  id : Nat
  title : List Char
  description : List Char
  completed : Bool
  created_at : Nat
  updated_at : Nat
  user : Nat
deriving DecidableEq

/-- Form data bound to `TaskForm` (`tasks/forms.py`): its `Meta.fields` are
exactly `['title', 'description', 'completed']`. -/
structure TaskFormData where
  title : List Char
  description : List Char
  completed : Bool
deriving DecidableEq

/-- Validation of `TaskForm`: `title` is a required CharField with
`max_length=200`; `description` has `blank=True` and `completed` is a
checkbox, so neither can fail validation. -/
def TaskForm.is_valid (fd : TaskFormData) : Bool :=
  !fd.title.isEmpty && fd.title.length ≤ 200

/-- Response of a task view, abstracting the rendered pages and redirects of
`tasks/views.py`: `notFound` is the 404 raised by `get_object_or_404`,
`redirectTaskList` is `redirect('task_list')`, `renderForm e` renders the
task form (`e` records whether the bound form carries validation errors),
`renderConfirm` renders the delete-confirmation page. -/
inductive Response
  | notFound
  | redirectTaskList
  | renderForm (errors : Bool)
  | renderConfirm
deriving DecidableEq

/-- Truthiness of `request.GET.get(name)` as tested by `if query:` in
`task_list`: `None` (parameter absent) and the empty string are falsy. -/
def truthy : Option (List Char) → Bool
  | none => false
  | some s => !s.isEmpty

/-- Case-insensitive containment of `pat` in `hay` over lower-cased
characters; `charsContains h p` is true iff `p` occurs contiguously in `h`. -/
def charsContains : List Char → List Char → Bool
  | hay, pat =>
    match hay with
    | [] => pat.isEmpty
    | _ :: t => pat.isPrefixOf hay || charsContains t pat

/-- Django `icontains`: the query occurs in the field up to case. -/
def icontains (hay pat : List Char) : Bool :=
  charsContains (hay.map Char.toLower) (pat.map Char.toLower)

/-- Timestamp denoted by a date parameter: the framework parses the date
string; with timestamps modelled as naturals the parameter is their decimal
numeral. -/
def parseTs (s : List Char) : Nat :=
  s.foldl (fun acc c => acc * 10 + (c.toNat - 48)) 0

/-- Stable descending insertion by `created_at`: the inserted task goes in
front of the first task whose `created_at` does not exceed its own, hence
before every task of equal `created_at` that was created after it. -/
def insertDesc (t : Task) : List Task → List Task
  | [] => [t]
  | u :: us => if u.created_at ≤ t.created_at then t :: u :: us else u :: insertDesc t us

/-- Meta.ordering `['-created_at']` of `tasks/models.py`, modelled as a
stable sort of the insertion-ordered table by `created_at` descending. -/
def orderByCreatedAtDesc : List Task → List Task
  | [] => []
  | t :: ts => insertDesc t (orderByCreatedAtDesc ts)

/-- Filter pipeline of `task_list` (`tasks/views.py`), before the ORM
ordering is applied: restrict to the requesting user, then apply the
`query`, `date_from`, `date_to` filters exactly when the raw parameter is
truthy. -/
def matching (store : List Task) (u : Nat)
    (query date_from date_to : Option (List Char)) : List Task :=
  let tasks := store.filter (fun t => t.user == u)
  let tasks := if truthy query then
      tasks.filter (fun t =>
        icontains t.title (query.getD []) || icontains t.description (query.getD []))
    else tasks
  let tasks := if truthy date_from then
      tasks.filter (fun t => decide (parseTs (date_from.getD []) ≤ t.created_at))
    else tasks
  if truthy date_to then
    tasks.filter (fun t => decide (t.created_at ≤ parseTs (date_to.getD [])))
  else tasks

/-- View `task_list`: the visible tasks of the requesting user, rendered in
the model's declared order. -/
def task_list (store : List Task) (u : Nat)
    (query date_from date_to : Option (List Char)) : List Task :=
  orderByCreatedAtDesc (matching store u query date_from date_to)

/-- View `task_create`: on POST with a valid form, save a task built from
the form's fields with `user` set to the requester and both timestamps set
to now (`auto_now_add`/`auto_now`), then redirect; on an invalid form
re-render it with errors; on GET render an unbound form. `pk` is the
primary key the database assigns to the new row. -/
def task_create (store : List Task) (u : Nat) (fd : TaskFormData)
    (method : Method) (now pk : Nat) : Response × List Task :=
  match method with
  | .POST =>
    if TaskForm.is_valid fd then
      (.redirectTaskList,
        store ++ [{ id := pk, title := fd.title, description := fd.description,
                    completed := fd.completed, created_at := now, updated_at := now,
                    user := u }])
    else (.renderForm true, store)
  | .GET => (.renderForm false, store)

/-- View `task_update`: `get_object_or_404(Task, pk=pk, user=request.user)`,
then on POST with a valid form save the form's `title`, `description` and
`completed` onto the row and refresh `updated_at` (`auto_now`); otherwise
render the form. -/
def task_update (store : List Task) (u pk : Nat) (method : Method)
    (fd : TaskFormData) (now : Nat) : Response × List Task :=
  match store.find? (fun t => t.id == pk && t.user == u) with
  | none => (.notFound, store)
  | some t =>
    match method with
    | .POST =>
      if TaskForm.is_valid fd then
        (.redirectTaskList,
          store.map (fun s =>
            if s.id == t.id then
              { s with title := fd.title, description := fd.description,
                       completed := fd.completed, updated_at := now }
            else s))
      else (.renderForm true, store)
    | .GET => (.renderForm false, store)

/-- View `task_delete`: `get_object_or_404(Task, pk=pk, user=request.user)`,
then on POST delete the row and redirect, on GET render the confirmation
page. -/
def task_delete (store : List Task) (u pk : Nat) (method : Method) :
    Response × List Task :=
  match store.find? (fun t => t.id == pk && t.user == u) with
  | none => (.notFound, store)
  | some t =>
    match method with
    | .POST => (.redirectTaskList, store.filter (fun s => !(s.id == t.id)))
    | .GET => (.renderConfirm, store)

/-- View `task_toggle_complete`: `get_object_or_404(Task, pk=pk,
user=request.user)`, then flip `completed`, save (refreshing `updated_at`)
and redirect.  The view never inspects `request.method`; the parameter is
kept to record that fact. -/
def task_toggle_complete (store : List Task) (u pk : Nat) (method : Method)
    (now : Nat) : Response × List Task :=
  match store.find? (fun t => t.id == pk && t.user == u) with
  | none => (.notFound, store)
  | some t =>
    (.redirectTaskList,
      store.map (fun s =>
        if s.id == t.id then { s with completed := !s.completed, updated_at := now }
        else s))

/-- User record of the credential store: `username` unique, `password` the
stored credential (hashing is the framework's; the check below compares the
stored credential with the submitted one). -/
structure User where
  id : Nat
  username : List Char
  password : List Char
deriving DecidableEq

/-- State seen by the authentication views: the user table and the session,
`some uid` when the request is authenticated as user `uid`. -/
structure AuthState where
  users : List User
  session : Option Nat
deriving DecidableEq

/-- Form data bound to `UserCreationForm` in `SignUpView`. -/
structure SignUpFormData where
  username : List Char
  password1 : List Char
  password2 : List Char
deriving DecidableEq

/-- Form data bound to `AuthenticationForm` in `CustomLoginView`. -/
structure LoginFormData where
  username : List Char
  password : List Char
deriving DecidableEq

/-- Validation of the framework's `UserCreationForm`: username required
(max_length 150) and not already taken, the two passwords non-empty and
equal. -/
def UserCreationForm.is_valid (users : List User) (fd : SignUpFormData) : Bool :=
  !fd.username.isEmpty && fd.username.length ≤ 150
    && users.all (fun u => !(u.username == fd.username))
    && !fd.password1.isEmpty && fd.password1 == fd.password2

/-- Credential check of the framework's `AuthenticationForm`: the id of the
user matching the submitted username and password, if any. -/
def checkCredentials (users : List User) (fd : LoginFormData) : Option Nat :=
  (users.find? (fun u => u.username == fd.username && u.password == fd.password)).map User.id

/-- Response of an authentication view: `redirectLogin` is `SignUpView`'s
`success_url = reverse_lazy('login')`, `redirectNext` is `LoginView`'s
redirect to the `next`/`LOGIN_REDIRECT_URL` target, `redirectHome` a
redirect to the home page (no authentication view in the source issues
it). -/
inductive AuthResponse
  | renderForm (errors : Bool)
  | redirectLogin
  | redirectNext
  | redirectHome
deriving DecidableEq

/-- View `SignUpView` (`authentication/views.py`): a `CreateView` over
`UserCreationForm`.  `CreateView` dispatch performs no authentication
check: GET renders the form, POST validates it; `form_valid` saves the new
user, logs the requester in as that user, and redirects to `success_url`
(the login page).  `newId` is the id the database assigns to the new
user. -/
def SignUpView (st : AuthState) (method : Method) (fd : SignUpFormData)
    (newId : Nat) : AuthResponse × AuthState :=
  match method with
  | .GET => (.renderForm false, st)
  | .POST =>
    if UserCreationForm.is_valid st.users fd then
      (.redirectLogin,
        { users := st.users ++ [{ id := newId, username := fd.username,
                                  password := fd.password1 }],
          session := some newId })
    else (.renderForm true, st)

/-- View `CustomLoginView` (`authentication/views.py`): a `LoginView` over
`AuthenticationForm` that does not set `redirect_authenticated_user`
(framework default `False`), so dispatch never redirects an authenticated
requester: GET renders the form, POST validates the credentials; on success
the session is bound to the matched user and the request is redirected to
the `next` target. -/
def CustomLoginView (st : AuthState) (method : Method) (fd : LoginFormData) :
    AuthResponse × AuthState :=
  match method with
  | .GET => (.renderForm false, st)
  | .POST =>
    match checkCredentials st.users fd with
    | some uid => (.redirectNext, { st with session := some uid })
    | none => (.renderForm true, st)

/-- Inserting a task is a permutation of consing it. -/
theorem insertDesc_perm (t : Task) (l : List Task) :
    List.Perm (insertDesc t l) (t :: l) := by
  induction l with
  | nil => simp [insertDesc]
  | cons u us ih =>
    by_cases h : u.created_at ≤ t.created_at
    · simp [insertDesc, h]
    · simp only [insertDesc, if_neg h]
      exact (ih.cons u).trans (List.Perm.swap t u us)

/-- The ORM ordering is a permutation of the table. -/
theorem orderByCreatedAtDesc_perm (l : List Task) :
    List.Perm (orderByCreatedAtDesc l) l := by
  induction l with
  | nil => simp [orderByCreatedAtDesc]
  | cons t ts ih =>
    exact (insertDesc_perm t (orderByCreatedAtDesc ts)).trans (ih.cons t)

/-- Membership is preserved by the ORM ordering. -/
theorem mem_orderByCreatedAtDesc {t : Task} {l : List Task} :
    t ∈ orderByCreatedAtDesc l ↔ t ∈ l :=
  (orderByCreatedAtDesc_perm l).mem_iff

/-- Insertion preserves the sortedness invariant. -/
theorem insertDesc_pairwise (t : Task) (l : List Task)
    (h : List.Pairwise (fun a b => b.created_at ≤ a.created_at) l) :
    List.Pairwise (fun a b => b.created_at ≤ a.created_at) (insertDesc t l) := by
  induction l with
  | nil => simp [insertDesc]
  | cons u us ih =>
    rw [List.pairwise_cons] at h
    obtain ⟨hu, hus⟩ := h
    by_cases hle : u.created_at ≤ t.created_at
    · simp only [insertDesc, if_pos hle]
      rw [List.pairwise_cons]
      refine ⟨?_, by rw [List.pairwise_cons]; exact ⟨hu, hus⟩⟩
      intro b hb
      rcases List.mem_cons.mp hb with rfl | hb
      · exact hle
      · exact le_trans (hu b hb) hle
    · simp only [insertDesc, if_neg hle]
      rw [List.pairwise_cons]
      refine ⟨?_, ih hus⟩
      intro b hb
      rcases List.mem_cons.mp ((insertDesc_perm t us).mem_iff.mp hb) with rfl | h'
      · exact le_of_lt (lt_of_not_le hle)
      · exact hu b h'

/-- The ORM ordering is sorted by `created_at` descending. -/
theorem orderByCreatedAtDesc_pairwise (l : List Task) :
    List.Pairwise (fun a b => b.created_at ≤ a.created_at) (orderByCreatedAtDesc l) := by
  induction l with
  | nil => simp [orderByCreatedAtDesc]
  | cons t ts ih => exact insertDesc_pairwise t _ ih

/-- Inserting a task of key `k` places it before every task of key `k`
already present. -/
theorem filter_insertDesc_eq_key (t : Task) (l : List Task) (k : Nat)
    (h : t.created_at = k) :
    (insertDesc t l).filter (fun x => x.created_at == k)
      = t :: l.filter (fun x => x.created_at == k) := by
  induction l with
  | nil => simp [insertDesc, List.filter_cons, h]
  | cons u us ih =>
    by_cases hle : u.created_at ≤ t.created_at
    · simp only [insertDesc, if_pos hle]
      rw [List.filter_cons, if_pos (by simp [h])]
    · have huk : ¬(u.created_at == k) = true := by
        simp only [beq_iff_eq]
        omega
      simp only [insertDesc, if_neg hle]
      rw [List.filter_cons, if_neg huk, ih, List.filter_cons, if_neg huk]

/-- Inserting a task of another key does not disturb the key-`k` tasks. -/
theorem filter_insertDesc_ne_key (t : Task) (l : List Task) (k : Nat)
    (h : t.created_at ≠ k) :
    (insertDesc t l).filter (fun x => x.created_at == k)
      = l.filter (fun x => x.created_at == k) := by
  have htk : ¬(t.created_at == k) = true := by simpa using h
  induction l with
  | nil => simp [insertDesc, List.filter_cons, htk]
  | cons u us ih =>
    by_cases hle : u.created_at ≤ t.created_at
    · simp only [insertDesc, if_pos hle]
      rw [List.filter_cons, if_neg htk]
    · simp only [insertDesc, if_neg hle]
      rw [List.filter_cons, ih, List.filter_cons]

/-- Stability of the ORM ordering: among tasks with equal `created_at`, the
ordered list keeps the table's insertion order. -/
theorem orderByCreatedAtDesc_stable (l : List Task) (k : Nat) :
    (orderByCreatedAtDesc l).filter (fun x => x.created_at == k)
      = l.filter (fun x => x.created_at == k) := by
  induction l with
  | nil => simp [orderByCreatedAtDesc]
  | cons t ts ih =>
    by_cases h : t.created_at = k
    · rw [orderByCreatedAtDesc, filter_insertDesc_eq_key t _ k h, ih,
        List.filter_cons, if_pos (by simp [h])]
    · rw [orderByCreatedAtDesc, filter_insertDesc_ne_key t _ k h, ih,
        List.filter_cons, if_neg (by simpa using h)]

/-- Tasks in a table with pairwise-distinct primary keys are determined by
their id. -/
theorem eq_of_mem_of_id_eq {store : List Task} {x T : Task}
    (hids : store.Pairwise fun a b => a.id ≠ b.id)
    (hx : x ∈ store) (hT : T ∈ store) (h : x.id = T.id) : x = T := by
  by_cases hxT : x = T
  · exact hxT
  · have hsym : Symmetric (fun a b : Task => a.id ≠ b.id) :=
      fun a b hab e => hab e.symm
    exact absurd h (List.Pairwise.forall hsym hids hx hT hxT)

/-- The ownership lookup `get_object_or_404(Task, pk=pk, user=u)` fails when
the task with that primary key belongs to another user. -/
theorem find?_none_of_nonowner {store : List Task} {T : Task} {u : Nat}
    (hids : store.Pairwise fun a b => a.id ≠ b.id)
    (hT : T ∈ store) (hu : T.user ≠ u) :
    store.find? (fun t => t.id == T.id && t.user == u) = none := by
  rw [List.find?_eq_none]
  intro x hx hpx
  simp only [Bool.and_eq_true, beq_iff_eq] at hpx
  obtain ⟨hid, huser⟩ := hpx
  exact hu ((eq_of_mem_of_id_eq hids hx hT hid) ▸ huser)

/-- The ownership lookup succeeds with the task itself when the requester
owns it. -/
theorem find?_owner {store : List Task} {T : Task} {u : Nat}
    (hids : store.Pairwise fun a b => a.id ≠ b.id)
    (hT : T ∈ store) (hu : T.user = u) :
    store.find? (fun t => t.id == T.id && t.user == u) = some T := by
  induction store with
  | nil => simp at hT
  | cons x xs ih =>
    rw [List.pairwise_cons] at hids
    obtain ⟨hhead, htail⟩ := hids
    by_cases hpx : (x.id == T.id && x.user == u) = true
    · rw [List.find?_cons_of_pos xs hpx]
      simp only [Bool.and_eq_true, beq_iff_eq] at hpx
      rcases List.mem_cons.mp hT with rfl | hTxs
      · rfl
      · exact absurd hpx.1 (hhead T hTxs)
    · rw [List.find?_cons_of_neg xs hpx]
      rcases List.mem_cons.mp hT with rfl | hTxs
      · exact absurd (by simp [hu]) hpx
      · exact ih htail hTxs

/-- Membership in a conditionally filtered list implies membership in the
unfiltered list. -/
theorem mem_of_mem_condFilter {l : List Task} {p : Task → Bool} {c : Prop}
    [Decidable c] {T : Task} (h : T ∈ if c then l.filter p else l) : T ∈ l := by
  split at h
  · exact (List.mem_filter.mp h).1
  · exact h

/-- Every task produced by the `task_list` filter pipeline belongs to the
requesting user. -/
theorem user_eq_of_mem_matching {store : List Task} {u : Nat}
    {q df dt : Option (List Char)} {T : Task}
    (h : T ∈ matching store u q df dt) : T.user = u := by
  simp only [matching] at h
  have h1 := mem_of_mem_condFilter h
  have h2 := mem_of_mem_condFilter h1
  have h3 := mem_of_mem_condFilter h2
  simpa using (List.mem_filter.mp h3).2

/-- Toggling a task the requester owns rewrites exactly that row, for any
request method: the view body never inspects the method. -/
theorem toggle_eq_of_owner {store : List Task} {T : Task} {u : Nat}
    (m : Method) (now : Nat)
    (hids : store.Pairwise fun a b => a.id ≠ b.id)
    (hT : T ∈ store) (hu : T.user = u) :
    task_toggle_complete store u T.id m now
      = (.redirectTaskList,
         store.map (fun s =>
           if s.id == T.id then { s with completed := !s.completed, updated_at := now }
           else s)) := by
  unfold task_toggle_complete
  rw [find?_owner hids hT hu]

/-- Updating a task the requester owns with a valid form rewrites exactly
that row with the form's three fields and a fresh `updated_at`. -/
theorem update_eq_of_owner {store : List Task} {T : Task} {u : Nat}
    {fd : TaskFormData} (now : Nat)
    (hids : store.Pairwise fun a b => a.id ≠ b.id)
    (hT : T ∈ store) (hu : T.user = u)
    (hfd : TaskForm.is_valid fd = true) :
    task_update store u T.id .POST fd now
      = (.redirectTaskList,
         store.map (fun s =>
           if s.id == T.id then
             { s with title := fd.title, description := fd.description,
                      completed := fd.completed, updated_at := now }
           else s)) := by
  unfold task_update
  rw [find?_owner hids hT hu]
  simp [hfd]

/-- Rewriting rows without touching their primary keys preserves key
distinctness. -/
theorem pairwise_ids_map {store : List Task} (f : Task → Task)
    (hf : ∀ s, (f s).id = s.id)
    (h : store.Pairwise fun a b => a.id ≠ b.id) :
    (store.map f).Pairwise fun a b => a.id ≠ b.id := by
  rw [List.pairwise_map]
  exact h.imp (by intro a b hab; simpa [hf] using hab)

/-- With a non-empty query and no date parameters, the filter pipeline is
the owner restriction followed by the case-insensitive search. -/
theorem matching_query_only {store : List Task} {u : Nat} {q : List Char}
    (hq : q ≠ []) :
    matching store u (some q) none none
      = (store.filter (fun t => t.user == u)).filter
          (fun t => icontains t.title q || icontains t.description q) := by
  have ht : truthy (some q) = true := by
    cases q with
    | nil => exact absurd rfl hq
    | cons a as => rfl
  simp only [matching, Option.getD_some]
  rw [if_pos ht, if_neg (by simp [truthy]), if_neg (by simp [truthy])]

/-- C1: a task whose owner differs from the requesting user never appears
in the task listing, for any combination of `query`, `date_from`, `date_to`
parameters; the owner restriction is applied before any other filter. -/
theorem task_list_excludes_other_owners (store : List Task) (u : Nat)
    (q df dt : Option (List Char)) (T : Task) (h : T.user ≠ u) :
    T ∉ task_list store u q df dt := by
  intro hmem
  exact h (user_eq_of_mem_matching (mem_orderByCreatedAtDesc.mp hmem))

/-- Witness for C1 at a concrete store: user 1 never sees user 2's task. -/
theorem task_list_excludes_other_owners_witness :
    (Task.mk 1 ['a'] [] false 0 0 2).user ≠ 1
    ∧ Task.mk 1 ['a'] [] false 0 0 2
        ∉ task_list [Task.mk 1 ['a'] [] false 0 0 2] 1 none none none :=
  ⟨by decide,
   task_list_excludes_other_owners [Task.mk 1 ['a'] [] false 0 0 2] 1
     none none none (Task.mk 1 ['a'] [] false 0 0 2) (by decide)⟩

/-- C2: on a table with distinct primary keys, `task_update`, `task_delete`
and `task_toggle_complete` invoked by a non-owner on an existing task's id
answer 404 and leave the store unchanged, for every method, form and
clock. -/
theorem nonowner_mutations_rejected (store : List Task) (T : Task) (u : Nat)
    (m : Method) (fd : TaskFormData) (now : Nat)
    (hids : store.Pairwise fun a b => a.id ≠ b.id)
    (hT : T ∈ store) (hu : T.user ≠ u) :
    task_update store u T.id m fd now = (.notFound, store)
    ∧ task_delete store u T.id m = (.notFound, store)
    ∧ task_toggle_complete store u T.id m now = (.notFound, store) := by
  have hf := find?_none_of_nonowner hids hT hu
  refine ⟨?_, ?_, ?_⟩ <;>
    simp only [task_update, task_delete, task_toggle_complete, hf]

/-- Witness for C2: user 2's mutation attempts on user 7's task. -/
theorem nonowner_mutations_rejected_witness :
    ([Task.mk 1 ['a'] [] false 0 0 7].Pairwise fun a b => a.id ≠ b.id)
    ∧ Task.mk 1 ['a'] [] false 0 0 7 ∈ [Task.mk 1 ['a'] [] false 0 0 7]
    ∧ (Task.mk 1 ['a'] [] false 0 0 7).user ≠ 2
    ∧ task_update [Task.mk 1 ['a'] [] false 0 0 7] 2 1 .POST
        (TaskFormData.mk ['b'] [] false) 9
        = (.notFound, [Task.mk 1 ['a'] [] false 0 0 7])
    ∧ task_delete [Task.mk 1 ['a'] [] false 0 0 7] 2 1 .POST
        = (.notFound, [Task.mk 1 ['a'] [] false 0 0 7])
    ∧ task_toggle_complete [Task.mk 1 ['a'] [] false 0 0 7] 2 1 .POST 9
        = (.notFound, [Task.mk 1 ['a'] [] false 0 0 7]) := by
  have h := nonowner_mutations_rejected [Task.mk 1 ['a'] [] false 0 0 7]
    (Task.mk 1 ['a'] [] false 0 0 7) 2 .POST (TaskFormData.mk ['b'] [] false) 9
    (by decide) (by decide) (by decide)
  exact ⟨by decide, by decide, by decide, h.1, h.2.1, h.2.2⟩

/-- C4: a create request whose title is empty fails validation (the form is
re-rendered with errors) and the store is unchanged, whatever the
description, completed flag, clock or fresh key. -/
theorem task_create_empty_title_rejected (store : List Task) (u : Nat)
    (d : List Char) (c : Bool) (now pk : Nat) :
    task_create store u (TaskFormData.mk [] d c) .POST now pk
      = (.renderForm true, store) := rfl

/-- C7: the task listing is sorted by `created_at` descending, is a
permutation of the filtered table, and among tasks of equal `created_at`
keeps the table's insertion order (stability). -/
theorem task_list_sorted_stable (store : List Task) (u : Nat)
    (q df dt : Option (List Char)) :
    ((task_list store u q df dt).Pairwise fun a b => b.created_at ≤ a.created_at)
    ∧ List.Perm (task_list store u q df dt) (matching store u q df dt)
    ∧ ∀ k, (task_list store u q df dt).filter (fun t => t.created_at == k)
        = (matching store u q df dt).filter (fun t => t.created_at == k) :=
  ⟨orderByCreatedAtDesc_pairwise _, orderByCreatedAtDesc_perm _,
   fun k => orderByCreatedAtDesc_stable _ k⟩

/-- C10: a listing request with an empty `query`, `date_from` or `date_to`
string behaves exactly like one with the parameter absent, and with all
three empty the full owner-restricted list is returned in order. -/
theorem empty_params_equal_absent (store : List Task) (u : Nat) :
    (∀ df dt, task_list store u (some []) df dt = task_list store u none df dt)
    ∧ (∀ q dt, task_list store u q (some []) dt = task_list store u q none dt)
    ∧ (∀ q df, task_list store u q df (some []) = task_list store u q df none)
    ∧ task_list store u (some []) (some []) (some [])
        = orderByCreatedAtDesc (store.filter (fun t => t.user == u)) :=
  ⟨fun _ _ => rfl, fun _ _ => rfl, fun _ _ => rfl, rfl⟩

/-- C8: with a non-empty query and no date parameters, the listing contains
exactly the requester's tasks whose title or description contains the query
as a case-insensitive substring. -/
theorem task_list_query_membership (store : List Task) (u : Nat)
    (q : List Char) (T : Task) (hq : q ≠ []) :
    T ∈ task_list store u (some q) none none
      ↔ T ∈ store ∧ T.user = u
          ∧ (icontains T.title q = true ∨ icontains T.description q = true) := by
  rw [task_list, mem_orderByCreatedAtDesc, matching_query_only hq]
  simp only [List.mem_filter, Bool.or_eq_true, beq_iff_eq]
  tauto

/-- Witness for C8: searching "milk" finds the task titled "Buy milk". -/
theorem task_list_query_membership_witness :
    (['m', 'i', 'l', 'k'] : List Char) ≠ []
    ∧ (Task.mk 1 ['B', 'u', 'y', ' ', 'm', 'i', 'l', 'k'] [] false 0 0 1
        ∈ task_list [Task.mk 1 ['B', 'u', 'y', ' ', 'm', 'i', 'l', 'k'] [] false 0 0 1]
            1 (some ['m', 'i', 'l', 'k']) none none
       ↔ Task.mk 1 ['B', 'u', 'y', ' ', 'm', 'i', 'l', 'k'] [] false 0 0 1
            ∈ [Task.mk 1 ['B', 'u', 'y', ' ', 'm', 'i', 'l', 'k'] [] false 0 0 1]
         ∧ (Task.mk 1 ['B', 'u', 'y', ' ', 'm', 'i', 'l', 'k'] [] false 0 0 1).user = 1
         ∧ (icontains (Task.mk 1 ['B', 'u', 'y', ' ', 'm', 'i', 'l', 'k'] [] false 0 0 1).title
              ['m', 'i', 'l', 'k'] = true
            ∨ icontains (Task.mk 1 ['B', 'u', 'y', ' ', 'm', 'i', 'l', 'k'] [] false 0 0 1).description
              ['m', 'i', 'l', 'k'] = true)) :=
  ⟨by decide,
   task_list_query_membership
     [Task.mk 1 ['B', 'u', 'y', ' ', 'm', 'i', 'l', 'k'] [] false 0 0 1] 1
     ['m', 'i', 'l', 'k']
     (Task.mk 1 ['B', 'u', 'y', ' ', 'm', 'i', 'l', 'k'] [] false 0 0 1)
     (by decide)⟩

/-- Counterexample to C3 as stated: a successful update with the bound
form's `completed` field unchecked turns a completed task back into an
incomplete one, so `completed` is not left untouched by updates. -/
theorem task_update_changes_completed_cex :
    (task_update [Task.mk 1 ['a'] [] true 0 0 7] 7 1 .POST
        (TaskFormData.mk ['b'] [] false) 5).1 = Response.redirectTaskList
    ∧ (task_update [Task.mk 1 ['a'] [] true 0 0 7] 7 1 .POST
        (TaskFormData.mk ['b'] [] false) 5).2
      = [Task.mk 1 ['b'] [] false 0 5 7] := by decide

/-- C3 (amended): a successful update sets `title`, `description` and
`completed` to the submitted form values and refreshes `updated_at`, while
`id`, `created_at` and `owner` are unchanged. -/
theorem task_update_success_frame (store : List Task) (T : Task) (u : Nat)
    (fd : TaskFormData) (now : Nat)
    (hids : store.Pairwise fun a b => a.id ≠ b.id)
    (hT : T ∈ store) (hu : T.user = u)
    (hfd : TaskForm.is_valid fd = true) :
    task_update store u T.id .POST fd now
      = (.redirectTaskList,
         store.map (fun s =>
           if s.id == T.id then
             Task.mk T.id fd.title fd.description fd.completed T.created_at now T.user
           else s)) := by
  rw [update_eq_of_owner now hids hT hu hfd]
  refine congrArg (fun l => (Response.redirectTaskList, l)) (List.map_congr_left ?_)
  intro s hs
  by_cases h : (s.id == T.id) = true
  · rw [if_pos h, if_pos h]
    have hsT : s = T := eq_of_mem_of_id_eq hids hs hT (by simpa using h)
    subst hsT
    rfl
  · rw [if_neg h, if_neg h]

/-- Witness for C3's amended theorem at a concrete update. -/
theorem task_update_success_frame_witness :
    ([Task.mk 1 ['a'] [] false 3 3 7].Pairwise fun a b => a.id ≠ b.id)
    ∧ Task.mk 1 ['a'] [] false 3 3 7 ∈ [Task.mk 1 ['a'] [] false 3 3 7]
    ∧ (Task.mk 1 ['a'] [] false 3 3 7).user = 7
    ∧ TaskForm.is_valid (TaskFormData.mk ['b'] ['d'] true) = true
    ∧ task_update [Task.mk 1 ['a'] [] false 3 3 7] 7 1 .POST
        (TaskFormData.mk ['b'] ['d'] true) 5
      = (.redirectTaskList, [Task.mk 1 ['b'] ['d'] true 3 5 7]) := by
  have h := task_update_success_frame [Task.mk 1 ['a'] [] false 3 3 7]
    (Task.mk 1 ['a'] [] false 3 3 7) 7 (TaskFormData.mk ['b'] ['d'] true) 5
    (by decide) (by decide) (by decide) (by decide)
  exact ⟨by decide, by decide, by decide, by decide, h.trans (by decide)⟩

/-- Counterexample to C6 as stated: a GET request to the toggle view also
flips the task's completed flag; the view body never checks the method. -/
theorem toggle_get_mutates_cex :
    (task_toggle_complete [Task.mk 1 ['a'] [] false 0 0 7] 7 1 .GET 5).2
      ≠ [Task.mk 1 ['a'] [] false 0 0 7]
    ∧ (task_toggle_complete [Task.mk 1 ['a'] [] false 0 0 7] 7 1 .GET 5).2
      = [Task.mk 1 ['a'] [] true 0 5 7] := by decide

/-- C6 (amended): the toggle view flips the owner's task for every request
method alike; it does not restrict the flip to POST. -/
theorem toggle_flips_any_method (store : List Task) (T : Task) (u : Nat)
    (m : Method) (now : Nat)
    (hids : store.Pairwise fun a b => a.id ≠ b.id)
    (hT : T ∈ store) (hu : T.user = u) :
    task_toggle_complete store u T.id m now
      = (.redirectTaskList,
         store.map (fun s =>
           if s.id == T.id then { s with completed := !s.completed, updated_at := now }
           else s)) :=
  toggle_eq_of_owner m now hids hT hu

/-- Witness for C6's amended theorem: the flip happens on a GET request. -/
theorem toggle_flips_any_method_witness :
    ([Task.mk 1 ['a'] [] false 0 0 7].Pairwise fun a b => a.id ≠ b.id)
    ∧ Task.mk 1 ['a'] [] false 0 0 7 ∈ [Task.mk 1 ['a'] [] false 0 0 7]
    ∧ (Task.mk 1 ['a'] [] false 0 0 7).user = 7
    ∧ task_toggle_complete [Task.mk 1 ['a'] [] false 0 0 7] 7 1 .GET 5
      = (.redirectTaskList, [Task.mk 1 ['a'] [] true 0 5 7]) := by
  have h := toggle_flips_any_method [Task.mk 1 ['a'] [] false 0 0 7]
    (Task.mk 1 ['a'] [] false 0 0 7) 7 .GET 5 (by decide) (by decide) (by decide)
  exact ⟨by decide, by decide, by decide, h.trans (by decide)⟩

/-- C9: one toggle stores the task with `completed` flipped (a genuine state
transition), and a second toggle returns `completed` to its original value:
after two toggles the whole store is unchanged except for `updated_at` on
the toggled row. -/
theorem toggle_flip_and_involution (store : List Task) (T : Task)
    (u now now' : Nat)
    (hids : store.Pairwise fun a b => a.id ≠ b.id)
    (hT : T ∈ store) (hu : T.user = u) :
    Task.mk T.id T.title T.description (!T.completed) T.created_at now T.user
        ∈ (task_toggle_complete store u T.id .POST now).2
    ∧ (task_toggle_complete
          (task_toggle_complete store u T.id .POST now).2 u T.id .POST now').2
        = store.map (fun s =>
            if s.id == T.id then
              Task.mk s.id s.title s.description s.completed s.created_at now' s.user
            else s) := by
  have h1 := toggle_eq_of_owner (T := T) .POST now hids hT hu
  have hfT : (fun s : Task =>
      if s.id == T.id then { s with completed := !s.completed, updated_at := now }
      else s) T
      = Task.mk T.id T.title T.description (!T.completed) T.created_at now T.user := by
    simp
  constructor
  · rw [h1]
    exact hfT ▸ List.mem_map_of_mem _ hT
  · rw [h1]
    have hpw : ((store.map (fun s : Task =>
        if s.id == T.id then { s with completed := !s.completed, updated_at := now }
        else s)).Pairwise fun a b => a.id ≠ b.id) := by
      refine pairwise_ids_map _ ?_ hids
      intro s
      dsimp only
      split <;> rfl
    have hmem : Task.mk T.id T.title T.description (!T.completed) T.created_at now T.user
        ∈ store.map (fun s : Task =>
            if s.id == T.id then { s with completed := !s.completed, updated_at := now }
            else s) :=
      hfT ▸ List.mem_map_of_mem _ hT
    have h2 : task_toggle_complete
        (store.map (fun s : Task =>
          if s.id == T.id then { s with completed := !s.completed, updated_at := now }
          else s)) u T.id .POST now'
        = (.redirectTaskList,
           (store.map (fun s : Task =>
             if s.id == T.id then { s with completed := !s.completed, updated_at := now }
             else s)).map (fun s =>
               if s.id == T.id then { s with completed := !s.completed, updated_at := now' }
               else s)) :=
      toggle_eq_of_owner
        (T := Task.mk T.id T.title T.description (!T.completed) T.created_at now T.user)
        .POST now' hpw hmem hu
    rw [h2, List.map_map]
    refine List.map_congr_left ?_
    intro s _
    by_cases h : (s.id == T.id) = true
    · simp only [Function.comp_apply, if_pos h]
      rw [Bool.not_not]
    · simp only [Function.comp_apply, if_neg h]

/-- Witness for C9 at a concrete task: toggled at time 5 and again at 9. -/
theorem toggle_flip_and_involution_witness :
    ([Task.mk 1 ['a'] [] false 0 0 7].Pairwise fun a b => a.id ≠ b.id)
    ∧ Task.mk 1 ['a'] [] false 0 0 7 ∈ [Task.mk 1 ['a'] [] false 0 0 7]
    ∧ (Task.mk 1 ['a'] [] false 0 0 7).user = 7
    ∧ Task.mk 1 ['a'] [] true 0 5 7
        ∈ (task_toggle_complete [Task.mk 1 ['a'] [] false 0 0 7] 7 1 .POST 5).2
    ∧ (task_toggle_complete
        (task_toggle_complete [Task.mk 1 ['a'] [] false 0 0 7] 7 1 .POST 5).2
        7 1 .POST 9).2
      = [Task.mk 1 ['a'] [] false 0 9 7] := by
  have h := toggle_flip_and_involution [Task.mk 1 ['a'] [] false 0 0 7]
    (Task.mk 1 ['a'] [] false 0 0 7) 7 5 9 (by decide) (by decide) (by decide)
  exact ⟨by decide, by decide, by decide, h.1, h.2.trans (by decide)⟩

/-- Counterexample to C5 as stated: an already-authenticated requester who
POSTs a valid registration to the signup page is not redirected home; the
form is processed, a user row is created, and the session is re-bound. -/
theorem signup_authenticated_processed_cex :
    (SignUpView (AuthState.mk [User.mk 1 ['a'] ['p']] (some 1)) .POST
        (SignUpFormData.mk ['b'] ['q'] ['q']) 2).1 ≠ AuthResponse.redirectHome
    ∧ (SignUpView (AuthState.mk [User.mk 1 ['a'] ['p']] (some 1)) .POST
        (SignUpFormData.mk ['b'] ['q'] ['q']) 2).2.users
      ≠ [User.mk 1 ['a'] ['p']]
    ∧ (SignUpView (AuthState.mk [User.mk 1 ['a'] ['p']] (some 1)) .POST
        (SignUpFormData.mk ['b'] ['q'] ['q']) 2).2.session ≠ some 1 := by decide

/-- C5 (amended): requests to signup or login by an already-authenticated
user are processed exactly as for an anonymous one; neither view redirects
home, and the response and resulting user table never depend on the
session. -/
theorem auth_views_ignore_session (st : AuthState) (m : Method)
    (fd : SignUpFormData) (fd' : LoginFormData) (nid u : Nat)
    (h : st.session = some u) :
    (SignUpView st m fd nid).1 ≠ AuthResponse.redirectHome
    ∧ (SignUpView st m fd nid).1
        = (SignUpView (AuthState.mk st.users none) m fd nid).1
    ∧ (SignUpView st m fd nid).2.users
        = (SignUpView (AuthState.mk st.users none) m fd nid).2.users
    ∧ (CustomLoginView st m fd').1 ≠ AuthResponse.redirectHome
    ∧ (CustomLoginView st m fd').1
        = (CustomLoginView (AuthState.mk st.users none) m fd').1
    ∧ (CustomLoginView st m fd').2.users
        = (CustomLoginView (AuthState.mk st.users none) m fd').2.users := by
  cases m with
  | GET => exact ⟨by simp [SignUpView], rfl, rfl, by simp [CustomLoginView], rfl, rfl⟩
  | POST =>
    refine ⟨?_, ?_, ?_, ?_, ?_, ?_⟩ <;>
      by_cases hv : UserCreationForm.is_valid st.users fd = true <;>
        cases hc : checkCredentials st.users fd' <;>
          simp [SignUpView, CustomLoginView, hv, hc]

/-- Witness for C5's amended theorem with a logged-in user. -/
theorem auth_views_ignore_session_witness :
    (AuthState.mk [User.mk 1 ['a'] ['p']] (some 1)).session = some 1
    ∧ ((SignUpView (AuthState.mk [User.mk 1 ['a'] ['p']] (some 1)) .POST
          (SignUpFormData.mk ['b'] ['q'] ['q']) 2).1 ≠ AuthResponse.redirectHome
       ∧ (SignUpView (AuthState.mk [User.mk 1 ['a'] ['p']] (some 1)) .POST
            (SignUpFormData.mk ['b'] ['q'] ['q']) 2).1
          = (SignUpView (AuthState.mk [User.mk 1 ['a'] ['p']] none) .POST
              (SignUpFormData.mk ['b'] ['q'] ['q']) 2).1
       ∧ (SignUpView (AuthState.mk [User.mk 1 ['a'] ['p']] (some 1)) .POST
            (SignUpFormData.mk ['b'] ['q'] ['q']) 2).2.users
          = (SignUpView (AuthState.mk [User.mk 1 ['a'] ['p']] none) .POST
              (SignUpFormData.mk ['b'] ['q'] ['q']) 2).2.users
       ∧ (CustomLoginView (AuthState.mk [User.mk 1 ['a'] ['p']] (some 1)) .POST
            (LoginFormData.mk ['a'] ['p'])).1 ≠ AuthResponse.redirectHome
       ∧ (CustomLoginView (AuthState.mk [User.mk 1 ['a'] ['p']] (some 1)) .POST
            (LoginFormData.mk ['a'] ['p'])).1
          = (CustomLoginView (AuthState.mk [User.mk 1 ['a'] ['p']] none) .POST
              (LoginFormData.mk ['a'] ['p'])).1
       ∧ (CustomLoginView (AuthState.mk [User.mk 1 ['a'] ['p']] (some 1)) .POST
            (LoginFormData.mk ['a'] ['p'])).2.users
          = (CustomLoginView (AuthState.mk [User.mk 1 ['a'] ['p']] none) .POST
              (LoginFormData.mk ['a'] ['p'])).2.users) :=
  ⟨rfl,
   auth_views_ignore_session (AuthState.mk [User.mk 1 ['a'] ['p']] (some 1)) .POST
     (SignUpFormData.mk ['b'] ['q'] ['q']) (LoginFormData.mk ['a'] ['p']) 2 1 rfl⟩

end Todo
